import Mathlib

/-!
Verification of the BGB web-bridge link-cable core.

Shallow embedding of the Rust sources:
- `src/protocol.rs` — the 8-byte wire packet codec (`BgbPacket`).
- `src/bgb.rs` — the transport background thread (`bgb_thread`) modelled as a
  state machine with explicit mpsc channel queues, plus the caller-side
  `exchange_byte` request/await steps.
- `src/game.rs` — the game-session sequencer (`GameThread`): start sequence,
  in-game tick, byte interpretation, command processing.
- `src/bridge.rs` — `Bridge::handle_message` magic-sentinel dispatch.

Bytes are modelled as `Nat` with explicit `< 256` bounds where they matter;
the 32-bit timestamp as `Nat` with explicit `% 2 ^ 32` wrapping. Wall-clock
instants are passed as explicit `Nat` millisecond parameters. Side effects
(packets written to the socket, bytes travelling through the two mpsc
channels, exchanges and sleeps issued by the sequencer) are reified as
explicit lists so that ordering properties can be stated.
-/

/-- The 8-byte BGB link protocol packet — `BgbPacket` in `src/protocol.rs`.
Fields are bytes except `timestamp`, a 32-bit little-endian value. -/
structure BgbPacket where
  command : Nat
  data : Nat
  extra1 : Nat
  extra2 : Nat
  timestamp : Nat
deriving DecidableEq, Repr

namespace BgbPacket

/-- `BgbPacket::to_bytes` — `[command, data, extra1, extra2, ts little-endian]`. -/
def to_bytes (p : BgbPacket) : List Nat :=
  [p.command, p.data, p.extra1, p.extra2,
   p.timestamp % 256, p.timestamp / 256 % 256,
   p.timestamp / 65536 % 256, p.timestamp / 16777216 % 256]

/-- `BgbPacket::from_bytes` — reads any 8-byte buffer; `u32::from_le_bytes`
on the last four bytes. Indexing a fixed 8-byte array is modelled with
`getD` (the Rust input is exactly 8 bytes, so the default is never used). -/
def from_bytes (b : List Nat) : BgbPacket :=
  { command := b.getD 0 0
    data := b.getD 1 0
    extra1 := b.getD 2 0
    extra2 := b.getD 3 0
    timestamp := b.getD 4 0 + 256 * b.getD 5 0 + 65536 * b.getD 6 0
      + 16777216 * b.getD 7 0 }

/-- A packet is representable when every byte field fits in a byte and the
timestamp fits in 32 bits. -/
def WF (p : BgbPacket) : Prop :=
  p.command < 256 ∧ p.data < 256 ∧ p.extra1 < 256 ∧ p.extra2 < 256 ∧
    p.timestamp < 2 ^ 32

end BgbPacket

/-- C4: for every representable packet `p` (byte fields below 256, timestamp
below `2 ^ 32`), `from_bytes (to_bytes p) = p`; `to_bytes` produces exactly
8 bytes laid out `[command][data][extra1][extra2][timestamp LE]`, and both
directions are total functions with no error path. -/
theorem decode_encode_roundtrip (p : BgbPacket) (h : p.WF) :
    BgbPacket.from_bytes p.to_bytes = p ∧ p.to_bytes.length = 8 := by
  obtain ⟨hc, hd, h1, h2, ht⟩ := h
  cases p with
  | mk c d e1 e2 ts =>
    refine ⟨?_, rfl⟩
    simp only [BgbPacket.to_bytes, BgbPacket.from_bytes, List.getD_cons_succ,
      List.getD_cons_zero, BgbPacket.mk.injEq]
    refine ⟨trivial, trivial, trivial, trivial, ?_⟩
    have e1 : ts / 256 / 256 = ts / 65536 := by
      rw [Nat.div_div_eq_div_mul]
    have e2 : ts / 65536 / 256 = ts / 16777216 := by
      rw [Nat.div_div_eq_div_mul]
    have ht' : ts < 2 ^ 32 := ht
    omega

/-- C4 witness: the roundtrip at the concrete packet
`⟨104, 0x29, 0x81, 0, 305419896⟩`. -/
theorem decode_encode_roundtrip_witness :
    BgbPacket.from_bytes (BgbPacket.to_bytes ⟨104, 41, 129, 0, 305419896⟩)
      = ⟨104, 41, 129, 0, 305419896⟩ :=
  (decode_encode_roundtrip ⟨104, 41, 129, 0, 305419896⟩
    (by refine ⟨?_, ?_, ?_, ?_, ?_⟩ <;> decide)).1

/-- C9: for every 8-byte buffer (each entry below 256),
`to_bytes (from_bytes b) = b` — the codec is lossless in the
decode-then-encode direction as well, hence a bijection between 8-byte
buffers and representable packets. -/
theorem encode_decode_roundtrip (b0 b1 b2 b3 b4 b5 b6 b7 : Nat)
    (h0 : b0 < 256) (h1 : b1 < 256) (h2 : b2 < 256) (h3 : b3 < 256)
    (h4 : b4 < 256) (h5 : b5 < 256) (h6 : b6 < 256) (h7 : b7 < 256) :
    BgbPacket.to_bytes (BgbPacket.from_bytes [b0, b1, b2, b3, b4, b5, b6, b7])
      = [b0, b1, b2, b3, b4, b5, b6, b7] := by
  simp only [BgbPacket.from_bytes, BgbPacket.to_bytes, List.getD_cons_succ,
    List.getD_cons_zero, List.cons.injEq, and_true]
  have e1 : ∀ m : Nat, m / 256 / 256 = m / 65536 := fun m => by
    rw [Nat.div_div_eq_div_mul]
  have e2 : ∀ m : Nat, m / 65536 / 256 = m / 16777216 := fun m => by
    rw [Nat.div_div_eq_div_mul]
  have f1 := e1 (b4 + 256 * b5 + 65536 * b6 + 16777216 * b7)
  have f2 := e2 (b4 + 256 * b5 + 65536 * b6 + 16777216 * b7)
  refine ⟨trivial, trivial, trivial, trivial, ?_, ?_, ?_, ?_⟩ <;> omega

/-- C9 witness: the reverse roundtrip at the buffer
`[105, 0, 128, 0, 255, 255, 255, 127]`. -/
theorem encode_decode_roundtrip_witness :
    BgbPacket.to_bytes (BgbPacket.from_bytes [105, 0, 128, 0, 255, 255, 255, 127])
      = [105, 0, 128, 0, 255, 255, 255, 127] :=
  encode_decode_roundtrip 105 0 128 0 255 255 255 127
    (by decide) (by decide) (by decide) (by decide)
    (by decide) (by decide) (by decide) (by decide)

/-!
## Transport model (`src/bgb.rs`)

`bgb_thread` runs a loop that (a) when no exchange is outstanding, polls the
send channel and initiates a sync1 transfer, and (b) processes each complete
8-byte packet read from the socket. The caller-side `BgbClient::exchange_byte`
pushes a byte into the send channel and then waits (5 s timeout) on the
receive channel. We model the thread-local state together with both mpsc
channel queues and the list of packets written to the socket; each loop
activity is one step function, and a caller's request / successful receive /
timed-out receive are separate caller steps, so that interleavings can be
written out explicitly.
-/

/-- State of the `bgb_thread` loop plus the two mpsc channels of
`BgbClient` (`send_tx`/`send_rx` and `recv_tx`/`recv_rx`) and the packets
written to the TCP stream. -/
structure BgbState where
  /-- `waiting_for_response` in `bgb_thread`. -/
  waiting : Bool
  /-- `pending_byte`: the byte sent in our last cmd=104. -/
  pendingByte : Nat
  /-- `next_timestamp`: the self-advancing BGB timestamp counter (u32). -/
  nextTimestamp : Nat
  /-- Bytes sitting in the send channel (caller → thread), oldest first. -/
  sendq : List Nat
  /-- Bytes sitting in the receive channel (thread → caller), oldest first. -/
  recvq : List Nat
  /-- Packets written to the socket, in order. -/
  sent : List BgbPacket
  /-- The loop has returned (disconnect). -/
  stopped : Bool
deriving DecidableEq, Repr

/-- Thread state right after `connect`'s handshake: nothing outstanding,
`next_timestamp` initialized to 0, empty channels. -/
def bgbInit : BgbState :=
  { waiting := false, pendingByte := 0, nextTimestamp := 0,
    sendq := [], recvq := [], sent := [], stopped := false }

/-- One u32 `wrapping_add(8192)` step of the timestamp counter. -/
def tsStep (t : Nat) : Nat := (t + 8192) % 2 ^ 32

/-- The timestamp counter after `n` initiated exchanges, starting from the
initial value 0. -/
def tsAfter (n : Nat) : Nat := tsStep^[n] 0

/-- The `send_rx.try_recv()` arm of the `bgb_thread` loop: when no exchange
is outstanding and a byte is queued, advance the timestamp, write a sync1
(`command=104`, `extra1=0x81` marking the local side clock master), remember
the pending byte and mark an exchange outstanding. Otherwise no change. -/
def threadTrySend (s : BgbState) : BgbState :=
  if s.waiting then s
  else
    match s.sendq with
    | [] => s
    | b :: rest =>
      let ts := tsStep s.nextTimestamp
      { s with
        sendq := rest
        nextTimestamp := ts
        sent := s.sent ++ [⟨104, b, 0x81, 0, ts⟩]
        pendingByte := b
        waiting := true }

/-- The packet dispatch of the `bgb_thread` loop (the `match pkt.command`
block): sync1 collision/unsolicited handling, sync2 completion or stale
discard, sync3 echo, status reply, disconnect, unknown ignored. A byte
delivered to the caller is appended to `recvq` (the `recv_tx.send` call). -/
def threadProcessPacket (s : BgbState) (pkt : BgbPacket) : BgbState :=
  if pkt.command = 104 then
    if s.waiting then
      { s with
        sent := s.sent ++ [⟨105, s.pendingByte, 0x80, 0, pkt.timestamp⟩]
        waiting := false
        recvq := s.recvq ++ [pkt.data] }
    else
      { s with sent := s.sent ++ [⟨105, 0, 0x80, 0, pkt.timestamp⟩] }
  else if pkt.command = 105 then
    if s.waiting then
      { s with waiting := false, recvq := s.recvq ++ [pkt.data] }
    else s
  else if pkt.command = 106 then
    { s with sent := s.sent ++ [⟨106, pkt.data, pkt.extra1, pkt.extra2, pkt.timestamp⟩] }
  else if pkt.command = 108 then
    { s with sent := s.sent ++ [⟨108, 1, 0, 0, pkt.timestamp⟩] }
  else if pkt.command = 109 then
    { s with stopped := true }
  else s

/-- Caller side of `exchange_byte`, first half: `send_tx.send(byte)` — the
byte joins the send channel. -/
def exchangeRequest (s : BgbState) (b : Nat) : BgbState :=
  { s with sendq := s.sendq ++ [b] }

/-- Caller side of `exchange_byte`, second half:
`recv_rx.recv_timeout(5 s)`. If the receive channel holds a byte, the
oldest one is returned; if it is still empty when the timeout fires, the
call returns the recoverable "BGB exchange timeout" error, modelled as
`none`. -/
def exchangeAwait (s : BgbState) : Option (Nat × BgbState) :=
  match s.recvq with
  | [] => none
  | d :: rest => some (d, { s with recvq := rest })

/-- Closed form of the timestamp counter: after `n` initiated exchanges it
holds `8192 * n` wrapped to 32 bits. -/
theorem tsAfter_closed (n : Nat) : tsAfter n = 8192 * n % 2 ^ 32 := by
  induction n with
  | zero => simp [tsAfter]
  | succ k ih =>
    have h : tsStep^[k + 1] 0 = tsStep (tsStep^[k] 0) :=
      Function.iterate_succ_apply' tsStep k 0
    rw [tsAfter, h, ← tsAfter, ih, tsStep]
    omega

/-- C1 counterexample: a response that arrives after the caller's timeout is
NOT discarded — it is delivered as the result of the next `exchange_byte`
call. Concretely: the caller requests an exchange of `0x11`, the thread sends
the sync1 and waits; no response arrives before the 5 s timeout, so the
caller's `recv_timeout` returns the timeout error (`exchangeAwait = none`).
The true response (sync2 carrying `0x55`) then arrives and the thread pushes
`0x55` into the receive channel. A second `exchange_byte` call requests
`0x22` — and its `recv_timeout` returns `0x55`, the stale response of the
timed-out first call, contradicting the claim that such a response is never
delivered as the result of any exchange call. -/
theorem stale_response_delivered_to_next_call :
    (exchangeAwait (threadTrySend (exchangeRequest bgbInit 0x11)) = none)
    ∧ ((exchangeAwait (threadTrySend (exchangeRequest
          (threadProcessPacket (threadTrySend (exchangeRequest bgbInit 0x11))
            ⟨105, 0x55, 0x80, 0, 999⟩) 0x22))).map Prod.fst = some 0x55) := by
  decide

/-- C1 amended: a call to `exchange_byte` that times out after the fixed 5 s
bound returns a recoverable error ("BGB exchange timeout", modelled as
`exchangeAwait = none` on an empty receive channel); however the transport
slot is NOT freed by the timeout — while `waiting_for_response` is set the
thread initiates nothing new — and a response packet that arrives after the
timeout completes the still-outstanding exchange: the thread pushes its data
byte into the receive channel, from which it is delivered as the result of
the next `exchange_byte` call rather than being discarded. Only a sync2
arriving when the thread has no exchange outstanding is discarded as
stale with no effect. -/
theorem timeout_slot_and_late_response :
    (∀ s : BgbState, s.recvq = [] → exchangeAwait s = none)
    ∧ (∀ s : BgbState, s.waiting = true → threadTrySend s = s)
    ∧ (∀ (s : BgbState) (pkt : BgbPacket), pkt.command = 105 →
        s.waiting = true →
        threadProcessPacket s pkt
          = { s with waiting := false, recvq := s.recvq ++ [pkt.data] })
    ∧ (∀ (s : BgbState) (pkt : BgbPacket), pkt.command = 105 →
        s.waiting = false → threadProcessPacket s pkt = s)
    ∧ (∀ (s : BgbState) (d : Nat) (rest : List Nat), s.recvq = d :: rest →
        exchangeAwait s = some (d, { s with recvq := rest })) := by
  refine ⟨?_, ?_, ?_, ?_, ?_⟩
  · intro s h
    simp [exchangeAwait, h]
  · intro s h
    simp [threadTrySend, h]
  · intro s pkt h hw
    simp [threadProcessPacket, h, hw]
  · intro s pkt h hw
    simp [threadProcessPacket, h, hw]
  · intro s d rest h
    simp [exchangeAwait, h]

/-- C1 amended, witness: the timeout error on an empty receive channel, the
busy slot ignoring a queued request, and a late sync2 completing the
outstanding exchange into the receive channel, at concrete states. -/
theorem timeout_slot_and_late_response_witness :
    exchangeAwait bgbInit = none
    ∧ threadTrySend { bgbInit with waiting := true, sendq := [0x22] }
        = { bgbInit with waiting := true, sendq := [0x22] }
    ∧ threadProcessPacket { bgbInit with waiting := true }
        ⟨105, 0x55, 0x80, 0, 999⟩
        = { bgbInit with waiting := false, recvq := [0x55] } := by
  refine ⟨timeout_slot_and_late_response.1 bgbInit rfl,
    timeout_slot_and_late_response.2.1
      { bgbInit with waiting := true, sendq := [0x22] } rfl, ?_⟩
  have h := timeout_slot_and_late_response.2.2.1
    { bgbInit with waiting := true } ⟨105, 0x55, 0x80, 0, 999⟩ rfl rfl
  exact h

/-- C2: the sync1 dispatch of `bgb_thread`. If a `command=104` packet arrives
while an exchange is outstanding with previously-sent byte `pendingByte`,
the thread replies with a sync2 (`command=105`) carrying `pendingByte` and
completes the outstanding exchange with the incoming packet's `data` field
as the delivered result (pushed into the receive channel); if a sync1
arrives with no exchange outstanding, the thread replies with a sync2
carrying a null byte `0x00` and completes nothing. -/
theorem sync1_collision_rule (s : BgbState) (pkt : BgbPacket)
    (h : pkt.command = 104) :
    (s.waiting = true →
      threadProcessPacket s pkt
        = { s with
            sent := s.sent ++ [⟨105, s.pendingByte, 0x80, 0, pkt.timestamp⟩]
            waiting := false
            recvq := s.recvq ++ [pkt.data] })
    ∧ (s.waiting = false →
      threadProcessPacket s pkt
        = { s with sent := s.sent ++ [⟨105, 0, 0x80, 0, pkt.timestamp⟩] }) := by
  constructor <;> intro hw <;> simp [threadProcessPacket, h, hw]

/-- C2 witness: collision with pending byte `0x29` and incoming data `0x42`
replies sync2 carrying `0x29` and delivers `0x42`; the unsolicited case
replies sync2 carrying `0x00` and delivers nothing. -/
theorem sync1_collision_rule_witness :
    threadProcessPacket { bgbInit with waiting := true, pendingByte := 0x29 }
        ⟨104, 0x42, 0x81, 0, 5⟩
      = { bgbInit with
          waiting := false
          pendingByte := 0x29
          sent := [⟨105, 0x29, 0x80, 0, 5⟩]
          recvq := [0x42] }
    ∧ threadProcessPacket bgbInit ⟨104, 0x42, 0x81, 0, 5⟩
      = { bgbInit with sent := [⟨105, 0, 0x80, 0, 5⟩] } := by
  constructor
  · have h := (sync1_collision_rule
      { bgbInit with waiting := true, pendingByte := 0x29 }
      ⟨104, 0x42, 0x81, 0, 5⟩ rfl).1 rfl
    exact h
  · have h := (sync1_collision_rule bgbInit ⟨104, 0x42, 0x81, 0, 5⟩ rfl).2 rfl
    exact h

/-- C3 counterexample: the timestamp counter's top bit is NOT always 0. The
counter is a u32 advanced by `wrapping_add(8192)` with no 31-bit mask, so
after 262144 initiated exchanges it reaches `2 ^ 31` and bit 31 is set,
refuting the claim that every reachable value is a 31-bit value over an
unbounded sequence of initiated exchanges. -/
theorem linkclock_top_bit_set_after_262144 :
    Nat.testBit (tsAfter 262144) 31 = true := by
  rw [tsAfter_closed]
  decide

/-- C3 amended: the timestamp counter is initialized to 0 at connection, is
advanced only when initiating a transfer (processing an incoming packet
never changes it) and by the fixed step 8192 per initiated exchange,
wrapping modulo `2 ^ 32` (`wrapping_add`); it is strictly increasing with
top bit 0 only for the first 262144 initiated exchanges — after `2 ^ 18`
exchanges the top bit becomes 1 (and the counter later wraps past 0), so
the 31-bit/monotone property is bounded, not unbounded. -/
theorem linkclock_step_behavior :
    bgbInit.nextTimestamp = 0
    ∧ (∀ (s : BgbState) (pkt : BgbPacket),
        (threadProcessPacket s pkt).nextTimestamp = s.nextTimestamp)
    ∧ (∀ (s : BgbState) (b : Nat) (rest : List Nat), s.waiting = false →
        s.sendq = b :: rest →
        (threadTrySend s).nextTimestamp = tsStep s.nextTimestamp)
    ∧ (∀ n, tsAfter n = 8192 * n % 2 ^ 32)
    ∧ (∀ n, n < 262144 → tsAfter n < 2 ^ 31 ∧ tsAfter n < tsAfter (n + 1)) := by
  refine ⟨rfl, ?_, ?_, tsAfter_closed, ?_⟩
  · intro s pkt
    simp only [threadProcessPacket]
    split_ifs <;> rfl
  · intro s b rest hw hq
    simp [threadTrySend, hw, hq]
  · intro n hn
    have h1 := tsAfter_closed n
    have h2 := tsAfter_closed (n + 1)
    constructor <;> (rw [h1]; try rw [h2]) <;> omega

/-- C3 amended, witness: initiating an exchange from a concrete state
advances the counter by one `tsStep`, and the counter after 3 exchanges is
below `2 ^ 31` and below its value after 4. -/
theorem linkclock_step_behavior_witness :
    (threadTrySend { bgbInit with sendq := [0x29] }).nextTimestamp
        = tsStep bgbInit.nextTimestamp
    ∧ tsAfter 3 < 2 ^ 31 ∧ tsAfter 3 < tsAfter 4 := by
  refine ⟨?_, linkclock_step_behavior.2.2.2.2 3 (by decide)⟩
  exact linkclock_step_behavior.2.2.1 { bgbInit with sendq := [0x29] } 0x29 []
    rfl rfl

/-!
## Game session model (`src/game.rs`)

`GameThread` drives a phase machine. Wall-clock instants are explicit `Nat`
milliseconds (`now`); the outcome of a transport `exchange` call is an
explicit `Option Nat` parameter (`none` = timeout/error). The exchanges and
sleeps a sequence performs are reified as an ordered `LinkAction` list.
-/

/-- The `Phase` enum of `src/game.rs`. -/
inductive Phase
  | WaitingForGame
  | Probing
  | MusicSelect
  | WaitingForStart
  | GameStarting
  | InGame
deriving DecidableEq, Repr

/-- The `GameEvent` enum of `src/game.rs` (semantic events plus log lines). -/
inductive GameEvent
  | connected
  | height (v : Nat)
  | lines (v : Nat)
  | win
  | lose
  | screenFilled
  | log (msg : String)
deriving DecidableEq, Repr

/-- An effect issued by the game thread: one byte exchange through the
transport, or a sleep of the given milliseconds. -/
inductive LinkAction
  | exchange (b : Nat)
  | delay (ms : Nat)
deriving DecidableEq, Repr

/-- The `GameCommand` enum of `src/game.rs`. -/
inductive GameCommand
  | setGame (name : String)
  | setMusic (b : Nat)
  | confirmMusic
  | startGame (garbage : List Nat) (tiles : List Nat) (isFirst : Bool)
  | setHeight (b : Nat)
  | queueCommand (b : Nat)
  | stop
deriving DecidableEq, Repr

/-- The mutable state of `GameThread`; `gameStartedAt` is the instant (ms)
recorded when the start sequence completed. -/
structure GameState where
  phase : Phase
  musicByte : Nat
  opponentHeight : Nat
  commandQueue : List Nat
  gameStartedAt : Option Nat
deriving DecidableEq, Repr

/-- `GameThread::exchange_n`: one exchange, then a sleep when `delay_ms > 0`. -/
def exchange_n (b delayMs : Nat) : List LinkAction :=
  LinkAction.exchange b :: (if delayMs > 0 then [LinkAction.delay delayMs] else [])

/-- `GameThread::run_game_start_sequence`, in source order: set phase to
`GameStarting`, clear the command queue, zero the opponent height; issue the
`is_first`-selected opening script, the garbage bytes (4 ms each), the
re-synchronization byte `0x29` (8 ms), the tile bytes (4 ms each), the
closing script; then record the start instant and set phase to `InGame`.
Exchanges never read or write the session state, so they are reified as the
ordered action list alongside the final state. -/
def run_game_start_sequence (s : GameState) (garbage tiles : List Nat)
    (isFirst : Bool) (now : Nat) : GameState × List LinkAction :=
  let s1 : GameState :=
    { s with phase := Phase.GameStarting, commandQueue := [], opponentHeight := 0 }
  let opening : List LinkAction :=
    if isFirst then
      exchange_n 0x60 150 ++ exchange_n 0x29 4
    else
      exchange_n 0x60 70 ++ exchange_n 0x02 70 ++ exchange_n 0x02 70 ++
        exchange_n 0x02 70 ++ exchange_n 0x79 330 ++ exchange_n 0x60 150 ++
        exchange_n 0x29 70
  let garbageActs : List LinkAction := garbage.flatMap (fun g => exchange_n g 4)
  let resync : List LinkAction := exchange_n 0x29 8
  let tileActs : List LinkAction := tiles.flatMap (fun t => exchange_n t 4)
  let closing : List LinkAction :=
    exchange_n 0x30 70 ++ exchange_n 0x00 70 ++ exchange_n 0x02 70 ++
      exchange_n 0x02 70 ++ exchange_n 0x20 70
  let s2 : GameState := { s1 with gameStartedAt := some now, phase := Phase.InGame }
  (s2, opening ++ garbageActs ++ resync ++ tileActs ++ closing)

/-- `GameThread::interpret_game_byte`: classify an exchange result into
events; the command queue is touched only in the `0xFF` case (push `0x43`).
The Rust `started.elapsed().as_millis()` is `now - started`. -/
def interpret_game_byte (s : GameState) (now : Nat) (value : Nat) :
    GameState × List GameEvent :=
  if value < 20 then
    (s, [GameEvent.height value])
  else if 0x80 ≤ value ∧ value ≤ 0x85 then
    (s, [GameEvent.lines value])
  else if value = 0x77 then
    (s, [GameEvent.log "Game Boy reports WIN (0x77)", GameEvent.win])
  else if value = 0xAA then
    match s.gameStartedAt with
    | some started =>
      if now - started < 3000 then
        (s, [GameEvent.log "Ignoring topped out - game just started"])
      else
        (s, [GameEvent.log "Game Boy reports LOSE (0xAA)", GameEvent.lose])
    | none =>
      (s, [GameEvent.log "Game Boy reports LOSE (0xAA)", GameEvent.lose])
  else if value = 0xFF then
    ({ s with commandQueue := s.commandQueue ++ [0x43] }, [GameEvent.screenFilled])
  else
    (s, [])

/-- `GameThread::run_game_loop_tick`: send the head of the command queue if
non-empty (removing it), else the opponent-height byte; on a successful
exchange interpret the result, on an error only log. Returns the new state,
the byte sent, and the emitted events. -/
def run_game_loop_tick (s : GameState) (now : Nat) (exchResult : Option Nat) :
    GameState × Nat × List GameEvent :=
  let step :=
    match s.commandQueue with
    | [] => (s.opponentHeight, s)
    | h :: t => (h, { s with commandQueue := t })
  match exchResult with
  | some v =>
    let r := interpret_game_byte step.2 now v
    (r.1, step.1, r.2)
  | none =>
    (step.2, step.1, [GameEvent.log "Game loop exchange error"])

/-- One command dispatch of `GameThread::process_commands`: the returned
flag is `true` when the thread must stop. `StartGame` runs the full start
sequence regardless of the current phase. -/
def process_command (s : GameState) (c : GameCommand) (now : Nat) :
    GameState × List LinkAction × Bool :=
  match c with
  | .setGame _ => ({ s with phase := Phase.Probing }, [], false)
  | .setMusic b => ({ s with musicByte := b }, [], false)
  | .confirmMusic =>
    ({ s with phase := Phase.WaitingForStart }, [LinkAction.exchange 0x50], false)
  | .startGame g t f =>
    let r := run_game_start_sequence s g t f now
    (r.1, r.2, false)
  | .setHeight h => ({ s with opponentHeight := h }, [], false)
  | .queueCommand b =>
    ({ s with commandQueue := s.commandQueue ++ [b] }, [], false)
  | .stop => (s, [], true)

/-- C5: processing `StartGame{garbage, tiles, is_first}` performs, in this
exact order: the fixed opening script selected by `is_first` (first-game
script when true, subsequent-game script when false), each step an exchange
followed by its fixed delay; then one exchange per supplied garbage byte in
order (4 ms spacing each); then the fixed re-synchronization exchange
(`0x29`, 8 ms); then one exchange per supplied tile byte in order (4 ms
spacing each); then the fixed closing script — and the resulting state has
the start instant recorded and the phase transitioned to `InGame`. -/
theorem start_game_sequence_order (s : GameState) (garbage tiles : List Nat)
    (isFirst : Bool) (now : Nat) :
    (run_game_start_sequence s garbage tiles isFirst now).2
      = (if isFirst then
          [LinkAction.exchange 0x60, LinkAction.delay 150,
           LinkAction.exchange 0x29, LinkAction.delay 4]
         else
          [LinkAction.exchange 0x60, LinkAction.delay 70,
           LinkAction.exchange 0x02, LinkAction.delay 70,
           LinkAction.exchange 0x02, LinkAction.delay 70,
           LinkAction.exchange 0x02, LinkAction.delay 70,
           LinkAction.exchange 0x79, LinkAction.delay 330,
           LinkAction.exchange 0x60, LinkAction.delay 150,
           LinkAction.exchange 0x29, LinkAction.delay 70])
        ++ garbage.flatMap (fun g => [LinkAction.exchange g, LinkAction.delay 4])
        ++ [LinkAction.exchange 0x29, LinkAction.delay 8]
        ++ tiles.flatMap (fun t => [LinkAction.exchange t, LinkAction.delay 4])
        ++ [LinkAction.exchange 0x30, LinkAction.delay 70,
            LinkAction.exchange 0x00, LinkAction.delay 70,
            LinkAction.exchange 0x02, LinkAction.delay 70,
            LinkAction.exchange 0x02, LinkAction.delay 70,
            LinkAction.exchange 0x20, LinkAction.delay 70]
    ∧ (run_game_start_sequence s garbage tiles isFirst now).1.phase = Phase.InGame
    ∧ (run_game_start_sequence s garbage tiles isFirst now).1.gameStartedAt
        = some now := by
  refine ⟨?_, rfl, rfl⟩
  simp [run_game_start_sequence, exchange_n]

/-- C10: processing a `StartGame` command in ANY current phase (not only
`WaitingForStart`) first clears the command queue to empty and resets the
opponent-height byte to 0 — the resulting state and the issued exchanges are
independent of the queue/height/phase the session started from — and the
sequence runs to completion, ending in `InGame` with the start instant
recorded (and the music byte preserved); the thread does not stop. -/
theorem start_game_any_phase_reset (s s' : GameState)
    (garbage tiles : List Nat) (isFirst : Bool) (now : Nat) :
    (process_command s (.startGame garbage tiles isFirst) now).1
      = { s with
          phase := Phase.InGame
          commandQueue := []
          opponentHeight := 0
          gameStartedAt := some now }
    ∧ (process_command s (.startGame garbage tiles isFirst) now).2.1
      = (process_command s' (.startGame garbage tiles isFirst) now).2.1
    ∧ (process_command s (.startGame garbage tiles isFirst) now).2.2 = false := by
  exact ⟨rfl, rfl, rfl⟩

/-- Whether an event is the `Lose` event. -/
def isLose : GameEvent → Bool
  | GameEvent.lose => true
  | _ => false

/-- C6: during `InGame`, an exchange result of `0xAA` received fewer than
3000 ms after the start sequence completed yields no `Lose` event (only the
suppression log line), while at 3000 ms or more it yields exactly one
`Lose` event. -/
theorem lose_suppression_window (s : GameState) (now started : Nat)
    (h : s.gameStartedAt = some started) :
    (now - started < 3000 →
      (interpret_game_byte s now 0xAA).2
          = [GameEvent.log "Ignoring topped out - game just started"]
        ∧ (interpret_game_byte s now 0xAA).2.countP isLose = 0)
    ∧ (3000 ≤ now - started →
      (interpret_game_byte s now 0xAA).2.countP isLose = 1) := by
  constructor
  · intro hlt
    simp [interpret_game_byte, h, hlt, isLose]
  · intro hge
    have hnlt : ¬ (now - started < 3000) := by omega
    simp [interpret_game_byte, h, hnlt, isLose]

/-- C6 witness: with the start instant 0, a `0xAA` result at 100 ms yields
zero `Lose` events and at 5000 ms exactly one. -/
theorem lose_suppression_window_witness :
    (interpret_game_byte ⟨Phase.InGame, 0x1C, 0, [], some 0⟩ 100 0xAA).2.countP
        isLose = 0
    ∧ (interpret_game_byte ⟨Phase.InGame, 0x1C, 0, [], some 0⟩ 5000 0xAA).2.countP
        isLose = 1 :=
  ⟨((lose_suppression_window ⟨Phase.InGame, 0x1C, 0, [], some 0⟩ 100 0 rfl).1
      (by decide)).2,
   (lose_suppression_window ⟨Phase.InGame, 0x1C, 0, [], some 0⟩ 5000 0 rfl).2
      (by decide)⟩

/-- C7 counterexample: an `InGame` tick with an empty command queue does not
always leave the queue empty. With empty queue and opponent height 0, the
tick sends the opponent-height byte, but when the exchange result is `0xFF`
(screen filled) the interpretation step pushes the follow-up byte `0x43`
onto the queue, so the tick ends with a non-empty queue — refuting "with an
empty queue ... the queue remains empty". -/
theorem tick_pushes_43_on_screen_filled :
    (run_game_loop_tick ⟨Phase.InGame, 0x1C, 0, [], some 0⟩ 5000
        (some 0xFF)).2.1 = 0
    ∧ (run_game_loop_tick ⟨Phase.InGame, 0x1C, 0, [], some 0⟩ 5000
        (some 0xFF)).1.commandQueue = [0x43] :=
  ⟨rfl, rfl⟩

/-- The command queue after `interpret_game_byte`: unchanged except that a
result of `0xFF` appends the fixed follow-up byte `0x43`. -/
theorem interpret_game_byte_queue (s : GameState) (now v : Nat) :
    (interpret_game_byte s now v).1.commandQueue
      = s.commandQueue ++ (if v = 0xFF then [0x43] else []) := by
  cases hgs : s.gameStartedAt <;>
    simp only [interpret_game_byte, hgs] <;>
    split_ifs <;> simp_all

/-- C7 amended: on every `InGame` tick the byte sent is the head of the
command queue when it is non-empty (and exactly that head entry is removed),
and the opponent-height byte when it is empty (nothing is removed); in both
cases, when the exchange result is `0xFF` the same tick additionally appends
the follow-up byte `0x43`, so the final queue is the tail of the original
queue (resp. empty) plus `0x43` exactly when the result is `0xFF`. -/
theorem tick_queue_behavior (s : GameState) (now : Nat) (r : Option Nat) :
    (run_game_loop_tick s now r).2.1
      = (match s.commandQueue with
         | [] => s.opponentHeight
         | h :: _ => h)
    ∧ (run_game_loop_tick s now r).1.commandQueue
      = s.commandQueue.tail ++ (if r = some 0xFF then [0x43] else []) := by
  cases hq : s.commandQueue <;> cases r <;>
    simp [run_game_loop_tick, hq, interpret_game_byte_queue]

/-!
## Bridge facade (`src/bridge.rs`)

`Bridge::handle_message` checks two 36-byte magic shapes before passing the
payload through as individual exchanges. The `exchange_byte` outcomes are an
explicit oracle `exch : Nat → Nat → Option Nat` giving the result of the
`i`-th call on byte `b` (`none` = error, which aborts the whole call via
`?`); the list of bytes actually passed to `exchange_byte`, in call order,
is returned alongside the responses.
-/

/-- The 32-byte magic sentinel (`MAGIC_PREFIX` in `src/bridge.rs`):
`0xCAFE` repeated 8 times then `0xDEADBEEF` repeated 4 times. -/
def magicHeader : List Nat :=
  [0xCA, 0xFE, 0xCA, 0xFE, 0xCA, 0xFE, 0xCA, 0xFE,
   0xCA, 0xFE, 0xCA, 0xFE, 0xCA, 0xFE, 0xCA, 0xFE,
   0xDE, 0xAD, 0xBE, 0xEF, 0xDE, 0xAD, 0xBE, 0xEF,
   0xDE, 0xAD, 0xBE, 0xEF, 0xDE, 0xAD, 0xBE, 0xEF]

/-- The 4-byte printer marker (`PRINTER_SUFFIX` in `src/bridge.rs`):
the ASCII bytes of "PRNT". -/
def printerMarker : List Nat := [80, 82, 78, 84]

/-- The pass-through loop of `handle_message`: one `exchange_byte` call per
input byte, in input order, pushing each response; the first error aborts.
Returns the responses (`none` after an error) and the bytes passed to
`exchange_byte` in call order. -/
def runExchanges (exch : Nat → Nat → Option Nat) :
    Nat → List Nat → Option (List Nat) × List Nat
  | _, [] => (some [], [])
  | i, b :: rest =>
    match exch i b with
    | none => (none, [b])
    | some r =>
      let k := runExchanges exch (i + 1) rest
      (k.1.map (fun l => r :: l), b :: k.2)

/-- `Bridge::handle_message`: a 36-byte input that is the magic sentinel
followed by the printer marker returns `[0x00]`; a 36-byte input that is the
magic sentinel followed by any other 4 bytes returns `[0x01]`; anything else
is passed through byte-by-byte. The magic branches perform no exchange. -/
def handle_message (exch : Nat → Nat → Option Nat) (data : List Nat) :
    Option (List Nat) × List Nat :=
  if data.length = 36 ∧ data.take 32 = magicHeader
      ∧ data.drop 32 = printerMarker then
    (some [0x00], [])
  else if data.length = 36 ∧ data.take 32 = magicHeader then
    (some [0x01], [])
  else
    runExchanges exch 0 data

/-- The expected pass-through responses: the `i`-th response byte is the
oracle's answer to the `i`-th input byte. -/
def mapFrom (f : Nat → Nat → Nat) : Nat → List Nat → List Nat
  | _, [] => []
  | i, b :: rest => f i b :: mapFrom f (i + 1) rest

/-- When every exchange succeeds, the pass-through loop answers one response
byte per input byte in order, and passes exactly the input bytes to
`exchange_byte` in order. -/
theorem runExchanges_total (f : Nat → Nat → Nat) (i : Nat) (data : List Nat) :
    runExchanges (fun j b => some (f j b)) i data
      = (some (mapFrom f i data), data) := by
  induction data generalizing i with
  | nil => rfl
  | cons b rest ih => simp [runExchanges, mapFrom, ih]

/-- C8: `handle_message` on the 32-byte sentinel followed by the printer
marker (36 bytes) returns exactly `[0x00]` with no exchange performed; on
the sentinel followed by any other 4 bytes (36 bytes) it returns exactly
`[0x01]` with no exchange performed; on any other input (different length
or mismatched prefix) it performs one exchange call per input byte in
order and returns one response byte per input byte, preserving order. -/
theorem handle_message_cases (exch : Nat → Nat → Option Nat)
    (f : Nat → Nat → Nat) (sfx data : List Nat) :
    (handle_message exch (magicHeader ++ printerMarker) = (some [0x00], []))
    ∧ (sfx.length = 4 → sfx ≠ printerMarker →
        handle_message exch (magicHeader ++ sfx) = (some [0x01], []))
    ∧ (¬ (data.length = 36 ∧ data.take 32 = magicHeader) →
        handle_message (fun i b => some (f i b)) data
          = (some (mapFrom f 0 data), data)) := by
  refine ⟨rfl, ?_, ?_⟩
  · intro h4 hne
    have hm : magicHeader.length = 32 := rfl
    have htake : (magicHeader ++ sfx).take 32 = magicHeader := by
      rw [← hm, List.take_left]
    have hdrop : (magicHeader ++ sfx).drop 32 = sfx := by
      rw [← hm, List.drop_left]
    have hlen : (magicHeader ++ sfx).length = 36 := by
      rw [List.length_append, hm, h4]
    have hc1 : ¬ ((magicHeader ++ sfx).length = 36
        ∧ (magicHeader ++ sfx).take 32 = magicHeader
        ∧ (magicHeader ++ sfx).drop 32 = printerMarker) := by
      rintro ⟨-, -, hdr⟩
      rw [hdrop] at hdr
      exact hne hdr
    rw [handle_message, if_neg hc1, if_pos ⟨hlen, htake⟩]
  · intro hnot
    have hc1 : ¬ (data.length = 36 ∧ data.take 32 = magicHeader
        ∧ data.drop 32 = printerMarker) := by
      rintro ⟨h1, h2, -⟩
      exact hnot ⟨h1, h2⟩
    rw [handle_message, if_neg hc1, if_neg hnot]
    exact runExchanges_total f 0 data

/-- C8 witness: the three branches at concrete inputs — sentinel plus
printer marker gives `[0x00]`, sentinel plus `"ABCD"` gives `[0x01]`, and
the two-byte payload `[0x29, 0x50]` is exchanged byte-by-byte in order. -/
theorem handle_message_cases_witness :
    handle_message (fun _ b => some (b + 1)) (magicHeader ++ printerMarker)
        = (some [0x00], [])
    ∧ handle_message (fun _ b => some (b + 1))
        (magicHeader ++ [0x41, 0x42, 0x43, 0x44]) = (some [0x01], [])
    ∧ handle_message (fun i b => some (i + b)) [0x29, 0x50]
        = (some [0x29, 0x51], [0x29, 0x50]) := by
  refine ⟨(handle_message_cases (fun _ b => some (b + 1)) (fun i b => i + b)
      [] []).1, ?_, ?_⟩
  · exact (handle_message_cases (fun _ b => some (b + 1)) (fun i b => i + b)
      [0x41, 0x42, 0x43, 0x44] []).2.1 rfl (by decide)
  · have h := (handle_message_cases (fun _ b => some (b + 1)) (fun i b => i + b)
      [] [0x29, 0x50]).2.2 (by decide)
    simpa [mapFrom] using h
